import Mathlib

/-!
Shallow embedding of the Dwolla certificate-validator custom-resource
provider (Python) and proofs about its specification claims.

Source files embedded:
  certificate_validator/provider.py      (Request, Response, Provider)
  certificate_validator/resources.py     (CertificateMixin, Certificate,
                                          CertificateValidator)
  certificate_validator/data_mapper.py   (DataMapperValue, CleanListValue,
                                          DataMapper)
  certificate_validator/exceptions.py    (UnknownRequestType)
  certificate_validator/main.py          (handler)

External collaborators (boto3 ACM / Route53 clients, the polling library,
the HTTP PUT of the final response) are modelled as oracle functions in a
`World` record; every externally visible call made by the embedded code is
recorded in an event trace so that call-order and call-count claims can be
stated.  Python exceptions are modelled as an `Exn` value threaded through
explicit `Except`/`Option` results: `Exn.client` is a botocore
`ClientError` (carrying the error code, the error message and the
rendered `str(ex)` form) and `Exn.other` is any other exception, carrying
its `str(ex)` form.
-/

namespace CertValidator

/-- A botocore `ClientError`: `ex.response['Error']['Code']`,
`ex.response['Error']['Message']`, and the rendered `str(ex)`. -/
structure ClientError where
  Code : String
  Message : String
  StrForm : String
deriving DecidableEq

/-- A Python exception as observed by the embedded code: either a botocore
`ClientError` or any other exception (polling timeout, `KeyError`,
`IndexError`, ...) carrying its `str(ex)` rendering. -/
inductive Exn
  | client (e : ClientError)
  | other (strForm : String)
deriving DecidableEq

/-- `str(ex)` of a modelled Python exception. -/
def Exn.toStr : Exn → String
  | .client e => e.StrForm
  | .other s => s

/-- `exceptions.UnknownRequestType.msg` (exceptions.py line 33); also the
`str(ex)` form of the raised exception, since
`CertificateValidatorException.__init__` passes `msg` to `Exception`. -/
def UnknownRequestType.msg : String :=
  "Unknown RequestType: Must be one of: Create, Update, or Delete."

/-- The `UnknownRequestType()` exception raised by `Provider.handler`. -/
def UnknownRequestType.exn : Exn := Exn.other UnknownRequestType.msg

/-! ### provider.py: Status and Response -/

/-- `Status.SUCCESS.value` (provider.py line 31). -/
def Status.SUCCESS : String := "SUCCESS"

/-- `Status.FAILED.value` (provider.py line 32). -/
def Status.FAILED : String := "FAILED"

/-- A Python dict with string keys, as an insertion-ordered association
list (used for the `Data` payload of a response). -/
def StrDict := List (String × String)
deriving DecidableEq

/-- `Response` (provider.py lines 190-391), as constructed by `main.py`:
`Status` and `Reason` start unset (`Option.none` models a missing
attribute), `PhysicalResourceId` is always set by `__init__`, `Data` is
unset until `set_data` is first called. -/
structure Response where
  RequestId : String := ""
  StackId : String := ""
  LogicalResourceId : String := ""
  PhysicalResourceId : String := ""
  Status : Option String := none
  Reason : Option String := none
  Data : Option StrDict := none
deriving DecidableEq

/-- `Response.__init__` on the keyword-less path taken by `main.handler`
(provider.py lines 235-245): copies the identifiers; an empty
`physical_resource_id` argument still ends with `PhysicalResourceId`
set to the empty string via `set_physical_resource_id('')`. -/
def Response.init (request_id stack_id logical_resource_id
    physical_resource_id : String) : Response :=
  { RequestId := request_id
    StackId := stack_id
    LogicalResourceId := logical_resource_id
    PhysicalResourceId := physical_resource_id }

/-- `Response.set_status` (provider.py lines 341-348). -/
def Response.set_status (r : Response) (success : Bool) : Response :=
  { r with Status := some (if success then Status.SUCCESS else Status.FAILED) }

/-- `Response.set_reason` (provider.py lines 350-354). -/
def Response.set_reason (r : Response) (reason : String) : Response :=
  { r with Reason := some reason }

/-- `Response.set_physical_resource_id` (provider.py lines 356-367). -/
def Response.set_physical_resource_id (r : Response) (pid : String) :
    Response :=
  { r with PhysicalResourceId := pid }

/-- Python `dict.update` with a single key: overwrite in place when the key
exists, else append at the end (insertion order preserved). -/
def dictUpd {α : Type} (d : List (String × α)) (k : String) (v : α) :
    List (String × α) :=
  if d.any (fun p => p.1 = k) then
    d.map (fun p => if p.1 = k then (k, v) else p)
  else
    d ++ [(k, v)]

/-- Python `dict.update(other)`: fold `dictUpd` over the other dict. -/
def dictUpdMany {α : Type} (d other : List (String × α)) :
    List (String × α) :=
  other.foldl (fun acc p => dictUpd acc p.1 p.2) d

/-- Python `dict[k]` lookup (first — and in a dict, only — binding). -/
def dictFind {α : Type} (k : String) : List (String × α) → Option α
  | [] => none
  | p :: rest => if p.1 = k then some p.2 else dictFind k rest

/-- `Response.set_data` (provider.py lines 369-385): merge into the
existing `Data` dict when one is set, else set it. -/
def Response.set_data (r : Response) (d : StrDict) : Response :=
  match r.Data with
  | none => { r with Data := some d }
  | some old => { r with Data := some (dictUpdMany old d) }

/-! ### resources.py: CertificateMixin.is_valid_arn

The source (resources.py lines 37-50) evaluates
`bool(re.match(r'arn:aws:acm:[\w+=/,.@-]*:[0-9]+:[\w+=,.@-]+(/[\w+=,.@-]+)*',
certificate_arn))`.  `re.match` anchors at the start of the string only, so
the result is true iff SOME PREFIX of the string matches the pattern.  The
character classes do not contain `:`, so the starred classes cannot run
past a `:`; and the trailing group `(/...)*` may match zero times, so the
pattern as a whole succeeds exactly when the string starts with the
literal `arn:aws:acm:`, then a (possibly empty) run of region characters,
`:`, a non-empty digit run, `:`, and at least one resource character —
everything after that first resource character is ignored.  The embedding
below implements that deterministic residue of the regex directly.
Python `\w` is modelled on its ASCII fragment (letters, digits, `_`). -/

/-- ASCII fragment of Python regex `\w`. -/
def isWordChar (c : Char) : Bool := c.isAlphanum || c = '_'

/-- The character class `[\w+=/,.@-]` of the region segment. -/
def isRegionChar (c : Char) : Bool :=
  isWordChar c || c = '+' || c = '=' || c = '/' || c = ',' || c = '.' ||
    c = '@' || c = '-'

/-- The character class `[\w+=,.@-]` of the resource segment. -/
def isResChar (c : Char) : Bool :=
  isWordChar c || c = '+' || c = '=' || c = ',' || c = '.' || c = '@' ||
    c = '-'

/-- Match a literal character list at the front, returning the rest. -/
def matchLit : List Char → List Char → Option (List Char)
  | [], s => some s
  | _ :: _, [] => none
  | p :: ps, c :: cs => if p = c then matchLit ps cs else none

/-- Split a list into its maximal leading run satisfying `p` and the
remainder. -/
def spanRun (p : Char → Bool) : List Char → List Char × List Char
  | [] => ([], [])
  | c :: cs =>
    if p c then
      let t := spanRun p cs
      (c :: t.1, t.2)
    else ([], c :: cs)

/-- Fuel-bounded core of Python `str.split(sep)` for a non-empty `sep`:
scan left to right, cutting at each non-overlapping occurrence of `sep`.
Each step consumes at least one character, so `fuel := length` never runs
out; the fuel-exhausted arm is unreachable for non-empty separators. -/
def pySplitAux (sep : List Char) : Nat → List Char → List Char →
    List (List Char)
  | _, acc, [] => [acc.reverse]
  | 0, acc, rest => [acc.reverse ++ rest]
  | fuel + 1, acc, c :: cs =>
    match matchLit sep (c :: cs) with
    | some rest => acc.reverse :: pySplitAux sep fuel [] rest
    | none => pySplitAux sep fuel (c :: acc) cs

/-- Python `s.split(sep)` for a non-empty separator (`''.split(sep)` is
`['']`, adjacent separators produce empty segments). -/
def pySplit (sep s : String) : List String :=
  (pySplitAux sep.data s.data.length [] s.data).map String.mk

/-- Python `sep.join(xs)`. -/
def pyJoin (sep : String) : List String → String
  | [] => ""
  | [x] => x
  | x :: y :: xs => x ++ sep ++ pyJoin sep (y :: xs)

/-- `CertificateMixin.is_valid_arn` (resources.py lines 37-50). -/
def is_valid_arn (certificate_arn : String) : Bool :=
  match matchLit "arn:aws:acm:".data certificate_arn.data with
  | none => false
  | some r1 =>
    match (spanRun isRegionChar r1).2 with
    | [] => false
    | c1 :: r2 =>
      c1 = ':' &&
        match spanRun Char.isDigit r2 with
        | (_, []) => false
        | (ds, c2 :: rest) =>
          decide (ds ≠ []) && c2 = ':' &&
            match rest with
            | [] => false
            | c :: _ => isResChar c

/-- The language `is_valid_arn` actually accepts, stated as a structural
decomposition of the input string. -/
def ArnAccepted (s : String) : Prop :=
  ∃ (region acct : List Char) (c : Char) (rest : List Char),
    s.data =
      "arn:aws:acm:".data ++ (region ++ (':' :: (acct ++ (':' :: (c :: rest)))))
    ∧ region.all isRegionChar ∧ acct ≠ [] ∧ acct.all Char.isDigit
    ∧ isResChar c

/-- Helper for `specArnShape`: the spec requires the resource segment to be
literally `certificate`, optionally followed by `/<id>`. -/
def certTail (r : List Char) : Bool :=
  match matchLit "certificate".data r with
  | none => false
  | some [] => true
  | some ('/' :: idChars) => decide (idChars ≠ [])
  | some _ => false

/-- The ARN shape described by the specification's words (spec §4.3:
pattern `arn:aws:acm:<region-or-empty>:<account-digits>:certificate`
with an optional `/<id>` suffix, rejecting any other resource segment and
any trailing characters).  This definition follows the spec's words, not
the source, and is compared against `is_valid_arn`. -/
def specArnShape (s : String) : Bool :=
  match matchLit "arn:aws:acm:".data s.data with
  | none => false
  | some r1 =>
    match (spanRun (fun c => c ≠ ':') r1).2 with
    | ':' :: r2 =>
      match spanRun Char.isDigit r2 with
      | (ds, ':' :: r3) => decide (ds ≠ []) && certTail (':' :: r3).tail
      | _ => false
    | _ => false

/-! ### resources.py: record-set data and the apex-domain narrowing -/

/-- A domain-validation resource record (`{'Name','Type','Value'}`). -/
structure ResourceRecord where
  Name : String
  «Type» : String
  Value : String
deriving DecidableEq

/-- One entry of `Certificate.DomainValidationOptions`; the
`ResourceRecord` key is absent until the authority has prepared it. -/
structure DomainValidationOption where
  DomainName : String
  ResourceRecord : Option ResourceRecord
deriving DecidableEq

/-- A Route53 resource record set as built by `get_change_batch`. -/
structure RecordSet where
  Name : String
  «Type» : String
  TTL : Nat
  ResourceRecords : List String
deriving DecidableEq

/-- One `{'Action', 'ResourceRecordSet'}` entry of a change batch. -/
structure Change where
  Action : String
  ResourceRecordSet : RecordSet
deriving DecidableEq

/-- A Route53 `ChangeBatch`. -/
structure ChangeBatch where
  Changes : List Change
deriving DecidableEq

/-- One entry of a `list_hosted_zones_by_name` response. -/
structure HostedZone where
  Id : String
  Name : String
deriving DecidableEq

/-- The apex-domain narrowing done inline in
`CertificateValidator.change_resource_record_sets` (resources.py lines
190-193): `'.'.join(domain_validation_option['DomainName'].split('.')[-2:])`.
Python `l[-2:]` keeps the last two elements (the whole list when it has
fewer than two), which `List.drop (length - 2)` reproduces under
truncated subtraction. -/
def apexDomain (domain_name : String) : String :=
  let labels := pySplit "." domain_name
  pyJoin "." (labels.drop (labels.length - 2))

/-- `CertificateValidator.get_change_batch` (resources.py lines 318-352).
The call site passes `action.value`, a plain string. -/
def get_change_batch (action : String) (resource_record : ResourceRecord) :
    ChangeBatch :=
  { Changes := [{ Action := action
                  ResourceRecordSet :=
                    { Name := resource_record.Name
                      «Type» := resource_record.«Type»
                      TTL := 300
                      ResourceRecords := [resource_record.Value] } }] }

/-! ### The external world and the event trace -/

/-- Externally visible calls made by the embedded code, recorded in order.
`crrsEnter` marks the entry of the (internal) method
`CertificateValidator.change_resource_record_sets`, so that claims about
that method's invocations can be stated; every other constructor is a
call leaving the process. -/
inductive Event
  | requestCert (domain : String) (sans : List String)
  | deleteCert (arn : String)
  | describeFetch (arn : String)
  | waitCert (arn : String)
  | listZones (dnsName : String)
  | changeRRS (zoneId : String) (batch : ChangeBatch)
  | crrsEnter (arn : String) (action : String)
  | sendResponse
deriving DecidableEq

/-- Whether an event is a call to the certificate authority or the DNS
provider (everything except the internal `crrsEnter` marker and the
response delivery). -/
def Event.isExternalCall : Event → Bool
  | .crrsEnter _ _ => false
  | .sendResponse => false
  | _ => true

/-- Oracles for the external collaborators of one invocation.  Each field
gives the outcome the outside world would produce for a call with the
given arguments.  `getDVOs` abstracts the whole bounded poll performed by
`CertificateValidator.get_domain_validation_options` (resources.py lines
271-302): its eventual outcome is either the certificate's
`DomainValidationOptions` list, a `ClientError` raised by
`describe_certificate`, or — the poll being wall-clock bounded — a
`polling.TimeoutException`, modelled as `Exn.other`. -/
structure World where
  requestCert : String → List String → Except Exn StrDict
  deleteCert : String → Except Exn Unit
  getDVOs : String → Except Exn (List DomainValidationOption)
  waitCert : String → Except Exn Unit
  listZones : String → Except Exn (List HostedZone)
  changeRRS : String → ChangeBatch → Except Exn Unit
  putResponse : Response → Except Exn Unit
  freshUuid : String

/-- Whether `needle` occurs at the front of `hay`. -/
def startsSeg : List Char → List Char → Bool
  | [], _ => true
  | _ :: _, [] => false
  | n :: ns, c :: cs => n = c && startsSeg ns cs

/-- Whether `needle` occurs contiguously anywhere in `hay`. -/
def listHasSeg (needle : List Char) : List Char → Bool
  | [] => needle.isEmpty
  | c :: cs => startsSeg needle (c :: cs) || listHasSeg needle cs

/-- Python `needle in hay` on strings. -/
def strHasSub (needle hay : String) : Bool := listHasSeg needle.data hay.data

/-- The result of running one Python method that mutates `self.response`
and may raise: the recorded external events, the response state when the
method returns or raises, and the raised exception if any. -/
structure OpOut where
  events : List Event
  response : Response
  exn : Option Exn

/-! ### resources.py: Action values and the property bag -/

/-- `Action.CREATE.value` (resources.py line 28). -/
def Action.CREATE : String := "CREATE"

/-- `Action.UPSERT.value` (resources.py line 29). -/
def Action.UPSERT : String := "UPSERT"

/-- `Action.DELETE.value` (resources.py line 30). -/
def Action.DELETE : String := "DELETE"

/-- Modelled from the spec: the typed `RequestResourceProperties` object
returned by `Request.resource_properties` is missing from the provider
module under `src/` (resources.py and the tests reference its
`domain_name`, `sans` and `certificate_arn` fields, and the tests import
the class from `certificate_validator.provider`).  Per spec §3 and §6 the
property bag carries `DomainName`, the cleaned `SubjectAlternativeNames`
list and `CertificateArn`, with empty defaults. -/
structure ResourceProperties where
  domain_name : String := ""
  sans : List String := []
  certificate_arn : String := ""
deriving DecidableEq

/-! ### resources.py: CertificateValidator -/

/-- `CertificateValidator.get_hosted_zone_id` (resources.py lines
304-316): one `list_hosted_zones_by_name` call, then
`response['HostedZones'][0]` (raising `IndexError` on an empty list) and
`hosted_zone['Id'].split('/hostedzone/')[1]` (raising `IndexError` when
the id carries no `/hostedzone/` separator). -/
def get_hosted_zone_id (w : World) (domain_name : String) :
    List Event × Except Exn String :=
  ([Event.listZones domain_name],
    match w.listZones domain_name with
    | .error e => .error e
    | .ok zones =>
      match zones with
      | [] => .error (Exn.other "list index out of range")
      | hosted_zone :: _ =>
        match (pySplit "/hostedzone/" hosted_zone.Id).get? 1 with
        | none => .error (Exn.other "list index out of range")
        | some zid => .ok zid)

/-- The per-requirement loop of
`CertificateValidator.change_resource_record_sets` (resources.py lines
189-201): for each domain validation option, narrow to the apex domain,
resolve the hosted zone, read the option's `ResourceRecord`
(`KeyError` when absent — its `str` form is the quoted key), build the
change batch and submit it.  The first exception aborts the remaining
iterations. -/
def processDVOs (w : World) (action : String) :
    List DomainValidationOption → List Event × Option Exn
  | [] => ([], none)
  | dvo :: rest =>
    let domain_name := apexDomain dvo.DomainName
    let z := get_hosted_zone_id w domain_name
    match z.2 with
    | .error e => (z.1, some e)
    | .ok hosted_zone_id =>
      match dvo.ResourceRecord with
      | none => (z.1, some (Exn.other "'ResourceRecord'"))
      | some resource_record =>
        let change_batch := get_change_batch action resource_record
        match w.changeRRS hosted_zone_id change_batch with
        | .error e =>
          (z.1 ++ [Event.changeRRS hosted_zone_id change_batch], some e)
        | .ok _ =>
          let t := processDVOs w action rest
          (z.1 ++ Event.changeRRS hosted_zone_id change_batch :: t.1, t.2)

/-- The `except exceptions.ClientError` clause of
`change_resource_record_sets` (resources.py lines 203-218).  Only
`ClientError` is caught; any other exception propagates (second
component `some e`). -/
def crrsCatch (resp : Response) (e : Exn) : Response × Option Exn :=
  match e with
  | Exn.client err =>
    if err.Code = "ResourceNotFoundException" then
      ((resp.set_status true).set_reason "Certificate not found.", none)
    else if err.Code = "InvalidChangeBatch" then
      if strHasSub "not found" err.Message then
        ((resp.set_status true).set_reason "Resource Record Set not found.",
          none)
      else
        ((resp.set_status false).set_reason e.toStr, none)
    else
      ((resp.set_status false).set_reason e.toStr, none)
  | Exn.other _ => (resp, some e)

/-- `CertificateValidator.change_resource_record_sets` (resources.py lines
164-218).  The `crrsEnter` event marks the method invocation itself. -/
def change_resource_record_sets (w : World) (certificate_arn action : String)
    (resp : Response) : OpOut :=
  if is_valid_arn certificate_arn = false then
    { events := [Event.crrsEnter certificate_arn action]
      response := (resp.set_status false).set_reason
        "Certificate ARN is invalid."
      exn := none }
  else
    match w.getDVOs certificate_arn with
    | .error e =>
      let c := crrsCatch resp e
      { events := [Event.crrsEnter certificate_arn action,
                   Event.describeFetch certificate_arn]
        response := c.1
        exn := c.2 }
    | .ok dvos =>
      let t := processDVOs w action dvos
      match t.2 with
      | none =>
        { events := Event.crrsEnter certificate_arn action ::
            Event.describeFetch certificate_arn :: t.1
          response := resp.set_status true
          exn := none }
      | some e =>
        let c := crrsCatch resp e
        { events := Event.crrsEnter certificate_arn action ::
            Event.describeFetch certificate_arn :: t.1
          response := c.1
          exn := c.2 }

/-- `CertificateValidator.create` (resources.py lines 220-235): set a
fresh uuid as the physical resource id, run
`change_resource_record_sets(arn, UPSERT)`, then `acm.wait(arn)` (the
waiter is not reached when the record-set call raised). -/
def CertificateValidator.create (w : World) (properties : ResourceProperties)
    (resp : Response) : OpOut :=
  let resp1 := resp.set_physical_resource_id w.freshUuid
  let c := change_resource_record_sets w properties.certificate_arn
    Action.UPSERT resp1
  match c.exn with
  | some e => { events := c.events, response := c.response, exn := some e }
  | none =>
    { events := c.events ++ [Event.waitCert properties.certificate_arn]
      response := c.response
      exn := match w.waitCert properties.certificate_arn with
             | .ok _ => none
             | .error e => some e }

/-- `CertificateValidator.update` (resources.py lines 237-257):
`change_resource_record_sets(old arn, DELETE)` then
`change_resource_record_sets(new arn, UPSERT)`; the second call is not
reached when the first raised an uncaught exception. -/
def CertificateValidator.update (w : World)
    (properties old_properties : ResourceProperties) (resp : Response) :
    OpOut :=
  let c1 := change_resource_record_sets w old_properties.certificate_arn
    Action.DELETE resp
  match c1.exn with
  | some e => { events := c1.events, response := c1.response, exn := some e }
  | none =>
    let c2 := change_resource_record_sets w properties.certificate_arn
      Action.UPSERT c1.response
    { events := c1.events ++ c2.events
      response := c2.response
      exn := c2.exn }

/-- `CertificateValidator.delete` (resources.py lines 259-269). -/
def CertificateValidator.delete (w : World)
    (properties : ResourceProperties) (resp : Response) : OpOut :=
  change_resource_record_sets w properties.certificate_arn Action.DELETE resp

/-! ### resources.py: Certificate -/

/-- `Certificate.create` (resources.py lines 76-103): one
`request_certificate` call; on `ClientError` the response is failed with
`str(ex)`; on success, `set_status(True)` runs first, then the
`response['CertificateArn']` subscript (KeyError when the key is absent,
after the status was already set), then `set_physical_resource_id` and
`set_data(response)`. -/
def Certificate.create (w : World) (properties : ResourceProperties)
    (resp : Response) : OpOut :=
  let ev := Event.requestCert properties.domain_name properties.sans
  match w.requestCert properties.domain_name properties.sans with
  | .error (Exn.client e) =>
    { events := [ev]
      response := (resp.set_status false).set_reason (Exn.client e).toStr
      exn := none }
  | .error (Exn.other m) =>
    { events := [ev], response := resp, exn := some (Exn.other m) }
  | .ok response_dict =>
    let resp1 := resp.set_status true
    match dictFind "CertificateArn" response_dict with
    | none =>
      { events := [ev]
        response := resp1
        exn := some (Exn.other "'CertificateArn'") }
    | some arn =>
      { events := [ev]
        response := (resp1.set_physical_resource_id arn).set_data
          response_dict
        exn := none }

/-- `Certificate.update` (resources.py lines 105-112): re-invokes
`create`. -/
def Certificate.update (w : World) (properties : ResourceProperties)
    (resp : Response) : OpOut :=
  Certificate.create w properties resp

/-- `Certificate.delete` (resources.py lines 114-140). -/
def Certificate.delete (w : World) (physical_resource_id : String)
    (resp : Response) : OpOut :=
  if physical_resource_id = "" then
    { events := []
      response := (resp.set_status true).set_reason
        "Certificate does not exist."
      exn := none }
  else if is_valid_arn physical_resource_id = false then
    { events := []
      response := (resp.set_status false).set_reason
        "Certificate ARN is invalid."
      exn := none }
  else
    let ev := Event.deleteCert physical_resource_id
    match w.deleteCert physical_resource_id with
    | .ok _ => { events := [ev], response := resp.set_status true, exn := none }
    | .error (Exn.client e) =>
      if e.Code = "ResourceNotFoundException" then
        { events := [ev]
          response := (resp.set_status true).set_reason
            "Certificate not found."
          exn := none }
      else
        { events := [ev]
          response := (resp.set_status false).set_reason (Exn.client e).toStr
          exn := none }
    | .error (Exn.other m) =>
      { events := [ev], response := resp, exn := some (Exn.other m) }

/-! ### provider.py: the lifecycle dispatcher -/

/-- `RequestType.CREATE.value` (provider.py line 19). -/
def RequestType.CREATE : String := "Create"

/-- `RequestType.UPDATE.value` (provider.py line 20). -/
def RequestType.UPDATE : String := "Update"

/-- `RequestType.DELETE.value` (provider.py line 21). -/
def RequestType.DELETE : String := "Delete"

/-- The `try` body of `Provider.handler` (provider.py lines 477-485):
dispatch on the request type, raising `UnknownRequestType` for any other
value.  The three operations are passed in, so the dispatcher is the one
shared by both resource classes. -/
def dispatchStep (request_type : String)
    (createOp updateOp deleteOp : Response → OpOut) (resp : Response) :
    OpOut :=
  if request_type = RequestType.CREATE then createOp resp
  else if request_type = RequestType.UPDATE then updateOp resp
  else if request_type = RequestType.DELETE then deleteOp resp
  else { events := [], response := resp, exn := some UnknownRequestType.exn }

/-- `Provider.handler` (provider.py lines 469-490) together with
`Provider.send_response` (lines 492-505).  Every exception escaping the
dispatched operation is caught: the response status is forced to FAILED
and the reason set to `str(ex)`.  The `finally` block then delivers the
response exactly once (the `sendResponse` event); a failure of the HTTP
PUT itself (`requests.put` / `raise_for_status`) is NOT caught and is the
only exception the handler can let escape (the third component). -/
def Provider.handler (w : World) (request_type : String)
    (createOp updateOp deleteOp : Response → OpOut) (resp : Response) :
    Response × List Event × Option Exn :=
  let step := dispatchStep request_type createOp updateOp deleteOp resp
  let final :=
    match step.exn with
    | none => step.response
    | some e => (step.response.set_status false).set_reason e.toStr
  (final, step.events ++ [Event.sendResponse],
    match w.putResponse final with
    | .ok _ => none
    | .error e => some e)

/-! ### main.py: the Lambda entry point -/

/-- The inbound CloudFormation event, with its property bags already in
typed form (spec §6).  A `PhysicalResourceId` absent on Create is the
empty string, matching `Request.physical_resource_id` (provider.py lines
163-166). -/
structure LambdaEvent where
  RequestType : String := ""
  ServiceToken : String := ""
  ResponseURL : String := ""
  StackId : String := ""
  RequestId : String := ""
  ResourceType : String := ""
  LogicalResourceId : String := ""
  PhysicalResourceId : String := ""
  ResourceProperties : CertValidator.ResourceProperties := {}
  OldResourceProperties : CertValidator.ResourceProperties := {}
deriving DecidableEq

/-- The full `Certificate` provider run: `Provider.handler` instantiated
with `Certificate.create` / `Certificate.update` / `Certificate.delete`
(provider.py line 469 dispatching into resources.py lines 76-140). -/
def Certificate.handlerRun (w : World) (ev : LambdaEvent)
    (resp : Response) : Response × List Event × Option Exn :=
  Provider.handler w ev.RequestType
    (Certificate.create w ev.ResourceProperties)
    (Certificate.update w ev.ResourceProperties)
    (Certificate.delete w ev.PhysicalResourceId)
    resp

/-- The full `CertificateValidator` provider run: `Provider.handler`
instantiated with the validator operations (resources.py lines
220-269). -/
def CertificateValidator.handlerRun (w : World) (ev : LambdaEvent)
    (resp : Response) : Response × List Event × Option Exn :=
  Provider.handler w ev.RequestType
    (CertificateValidator.create w ev.ResourceProperties)
    (CertificateValidator.update w ev.ResourceProperties
      ev.OldResourceProperties)
    (CertificateValidator.delete w ev.ResourceProperties)
    resp

/-- `main.handler` (main.py lines 12-45): build the request view and the
response shell, then run the matching resource handler; an event whose
`ResourceType` matches neither string falls through both `if` blocks and
the function returns with no handler invoked and no delivery attempted.
(The two source `if`s are mutually exclusive string comparisons, so
`else if` is equivalent.)  Returns the recorded events and the exception
escaping the invocation, if any. -/
def mainHandler (w : World) (ev : LambdaEvent) : List Event × Option Exn :=
  let resp := Response.init ev.RequestId ev.StackId ev.LogicalResourceId
    ev.PhysicalResourceId
  if ev.ResourceType = "Custom::Certificate" then
    let h := Certificate.handlerRun w ev resp
    (h.2.1, h.2.2)
  else if ev.ResourceType = "Custom::CertificateValidator" then
    let h := CertificateValidator.handlerRun w ev resp
    (h.2.1, h.2.2)
  else
    ([], none)

/-! ### provider.py: the lazily cached Request.region (modelled from the
spec) -/

/-- Modelled from the spec: `Request.DEFAULT_REGION`.  The `region`
property and its default are missing from the provider module under
`src/` (resources.py lines 74 and 161 call `self.request.region`, and the
tests reference `Request.DEFAULT_REGION`, but provider.py defines
neither).  Spec §8: identifiers lacking enough segments default to
`"us-east-1"`. -/
def Request.DEFAULT_REGION : String := "us-east-1"

/-- The mutable per-request state backing the lazily cached `region`
property: the memoised region, and the number of fallback warnings the
logger has received. -/
structure RequestState where
  region_cache : Option String := none
  warnCount : Nat := 0
deriving DecidableEq

/-- Modelled from the spec: the `Request.region` property is missing from
the provider module under `src/` (only its callers in resources.py and
its tests reference it).  Spec §3: "Region is derived lazily and cached:
parsed from the stack identifier's structured segments when possible
(5-part colon-delimited identifier; 4th segment is the region), else a
hard-coded fallback, with a warning on fallback", and spec §8: the
fallback applies "for identifiers lacking ≥4 colon-delimited segments";
repeated access does not recompute or re-log.  Returns the region and the
updated per-request state. -/
def Request.region (stack_id : String) (st : RequestState) :
    String × RequestState :=
  match st.region_cache with
  | some r => (r, st)
  | none =>
    let segs := pySplit ":" stack_id
    if 4 ≤ segs.length then
      let r := segs.getD 3 ""
      (r, { st with region_cache := some r })
    else
      (Request.DEFAULT_REGION,
        { region_cache := some Request.DEFAULT_REGION
          warnCount := st.warnCount + 1 })

/-! ### data_mapper.py -/

/-- A `DataMapperValue` as seen by `DataMapper.__init__` (data_mapper.py
lines 6-24): the target attribute name `param`, the declared `default`,
and the `parsed` transform (the identity when no parser was supplied).
The value type is a parameter because Python is untyped here. -/
structure DMValue (α : Type) where
  param : String
  default : α
  parsedFn : α → α

/-- `DataMapper.__init__` (data_mapper.py lines 75-94): start from the
declared defaults, `dict.update` with the constructor kwargs, then for
each entry of the resulting dict either rename/transform it through its
`DataMapperValue` (when its key is declared in `MAP`) or copy it through
verbatim (when it is not), writing into the object dict `self.__dict__`.
The result is the constructed object's attribute dict. -/
def DataMapper.init {α : Type} (MAP : List (String × DMValue α))
    (kwargs : List (String × α)) : List (String × α) :=
  let data := dictUpdMany (MAP.map (fun p => (p.1, p.2.default))) kwargs
  data.foldl
    (fun dict e =>
      match dictFind e.1 MAP with
      | some param => dictUpd dict param.param (param.parsedFn e.2)
      | none => dictUpd dict e.1 e.2)
    []

/-- The default `invalid_values` membership test of `CleanListValue`
(data_mapper.py lines 36-38): `None`, the empty string, or `'-'`.  A list
element is a Python string or `None`, modelled as `Option String`. -/
def CleanListValue.isInvalid (item : Option String) : Bool :=
  item = none || item = some "" || item = some "-"

/-- `CleanListValue.parsed` (data_mapper.py lines 40-46) on its intended
input domain (a list or `None`): a falsy input is replaced by `[]`
(`None` here; an empty list is rewritten to the same empty list), then
the comprehension keeps, in order, the items not in `invalid_values`. -/
def CleanListValue.parsed (value : Option (List (Option String))) :
    List (Option String) :=
  let v : List (Option String) :=
    match value with
    | none => []
    | some l => l
  v.filter (fun item => ! CleanListValue.isInvalid item)

/-- The loop body of `DataMapper.__init__` (data_mapper.py lines 89-94),
as a named function so that facts about the fold can be stated:
`DataMapper.init MAP kwargs` is definitionally
`(dictUpdMany defaults kwargs).foldl (dmStep MAP) []`. -/
def dmStep {α : Type} (MAP : List (String × DMValue α))
    (dict : List (String × α)) (e : String × α) : List (String × α) :=
  match dictFind e.1 MAP with
  | some param => dictUpd dict param.param (param.parsedFn e.2)
  | none => dictUpd dict e.1 e.2

/-- The object-dict key a data-dict entry named `n` is written to:
the declared target name when `n` is declared in `MAP`, else `n`
itself. -/
def dmKey {α : Type} (MAP : List (String × DMValue α)) (n : String) :
    String :=
  match dictFind n MAP with
  | some param => param.param
  | none => n

/-- The value a data-dict entry `(n, v)` is written with: `v` through the
declared transform when `n` is declared in `MAP`, else `v` itself. -/
def dmVal {α : Type} (MAP : List (String × DMValue α)) (n : String)
    (v : α) : α :=
  match dictFind n MAP with
  | some param => param.parsedFn v
  | none => v

/-- The schema of the C9 counterexample: one declared field, input key
`"A"`, stored as attribute `"a"`, default `""`, with a transform (a
`DataMapperValue` built with an explicit `parser`, as the repository's
tests do) sending every value to `"X"`. -/
def cexMap : List (String × DMValue String) :=
  [("A", { param := "a", default := "", parsedFn := fun _ => "X" })]

/-- The kwargs of the C9 counterexample: one key not declared in the
schema. -/
def cexKwargs : List (String × String) := [("Zzz", "v")]

/-! ### Projections used in trace statements -/

/-- The hosted-zone lookup argument carried by an event, when it is one. -/
def zoneArg : Event → Option String
  | .listZones d => some d
  | _ => none

/-! ### Concrete fixtures used by witnesses and counterexamples -/

/-- A prepared validation resource record, shaped like the test fixtures
of tests/base.py. -/
def rrExample : ResourceRecord :=
  { Name := "_x1.example.com."
    «Type» := "CNAME"
    Value := "_x2.acm-validations.aws." }

/-- A domain validation option with the subdomain-qualified validation
domain used as the spec's apex-narrowing example. -/
def dvoExample : DomainValidationOption :=
  { DomainName := "_acm-challenge.sub.example.com"
    ResourceRecord := some rrExample }

/-- A well-formed certificate ARN. -/
def arnExample : String := "arn:aws:acm:us-east-1:123:certificate/1337"

/-- A world in which every external call succeeds. -/
def okWorld : World where
  requestCert := fun _ _ => .ok [("CertificateArn", arnExample)]
  deleteCert := fun _ => .ok ()
  getDVOs := fun _ => .ok [dvoExample]
  waitCert := fun _ => .ok ()
  listZones := fun _ =>
    .ok [{ Id := "/hostedzone/Z23ABC4XYZL05B", Name := "example.com." }]
  changeRRS := fun _ _ => .ok ()
  putResponse := fun _ => .ok ()
  freshUuid := "uuid-1337"

/-- A world in which the validation-requirement poll times out: the
`polling.TimeoutException` is not a `ClientError`, so it escapes
`change_resource_record_sets`. -/
def timeoutWorld : World :=
  { okWorld with getDVOs := fun _ => .error (Exn.other "values in poll() did not clear the check function within timeout") }

/-- A dispatched operation that raises immediately (events empty, the
response untouched, an exception escaping). -/
def raiseOp : Response → OpOut :=
  fun r => { events := [], response := r, exn := some (Exn.other "boom") }

/-! ## Theorems -/

/-- C7: For every Delete event on the Certificate resource whose physical
resource identifier is the empty string, the result's status is Success
with reason "Certificate does not exist." and no call to the certificate
authority is made (the trace holds only the single response delivery). -/
theorem certificate_delete_empty_id (w : World) (ev : LambdaEvent)
    (resp : Response)
    (hrt : ev.RequestType = "Delete") (hpid : ev.PhysicalResourceId = "") :
    (Certificate.handlerRun w ev resp).1.Status = some Status.SUCCESS ∧
    (Certificate.handlerRun w ev resp).1.Reason =
      some "Certificate does not exist." ∧
    (Certificate.handlerRun w ev resp).2.1 = [Event.sendResponse] := by
  simp [Certificate.handlerRun, Provider.handler, dispatchStep, hrt, hpid,
    RequestType.CREATE, RequestType.UPDATE, RequestType.DELETE,
    Certificate.delete, Response.set_status, Response.set_reason,
    Status.SUCCESS]

/-- Witness for `certificate_delete_empty_id` at a concrete event. -/
theorem certificate_delete_empty_id_witness :
    (Certificate.handlerRun okWorld { RequestType := "Delete" } {}).1.Status
        = some Status.SUCCESS ∧
    (Certificate.handlerRun okWorld { RequestType := "Delete" } {}).1.Reason
        = some "Certificate does not exist." ∧
    (Certificate.handlerRun okWorld { RequestType := "Delete" } {}).2.1 =
      [Event.sendResponse] :=
  certificate_delete_empty_id okWorld { RequestType := "Delete" } {} rfl rfl

/-- C4: For every request type that is none of Create, Update, Delete,
the handler produces a FAILED result with exactly the
`UnknownRequestType` message, the trace is a single response delivery,
and the outcome does not depend on the three dispatched operations at
all (none of them is invoked). -/
theorem handler_unknown_request_type (w : World) (rt : String)
    (c u d cO uO dO : Response → OpOut) (resp : Response)
    (h1 : rt ≠ RequestType.CREATE) (h2 : rt ≠ RequestType.UPDATE)
    (h3 : rt ≠ RequestType.DELETE) :
    (Provider.handler w rt c u d resp).1.Status = some Status.FAILED ∧
    (Provider.handler w rt c u d resp).1.Reason =
      some "Unknown RequestType: Must be one of: Create, Update, or Delete." ∧
    (Provider.handler w rt c u d resp).2.1 = [Event.sendResponse] ∧
    Provider.handler w rt c u d resp = Provider.handler w rt cO uO dO resp
    := by
  simp [Provider.handler, dispatchStep, h1, h2, h3, UnknownRequestType.exn,
    UnknownRequestType.msg, Exn.toStr, Response.set_status,
    Response.set_reason, Status.FAILED]

/-- Witness for `handler_unknown_request_type` at request type
"Unknown". -/
theorem handler_unknown_request_type_witness :
    ("Unknown" ≠ RequestType.CREATE ∧ "Unknown" ≠ RequestType.UPDATE ∧
      "Unknown" ≠ RequestType.DELETE) ∧
    (Provider.handler okWorld "Unknown" raiseOp raiseOp raiseOp {}).1.Status
      = some Status.FAILED ∧
    (Provider.handler okWorld "Unknown" raiseOp raiseOp raiseOp {}).1.Reason
      = some
        "Unknown RequestType: Must be one of: Create, Update, or Delete." ∧
    (Provider.handler okWorld "Unknown" raiseOp raiseOp raiseOp {}).2.1 =
      [Event.sendResponse] :=
  have h := handler_unknown_request_type okWorld "Unknown"
    raiseOp raiseOp raiseOp raiseOp raiseOp raiseOp {}
    (by decide) (by decide) (by decide)
  ⟨⟨by decide, by decide, by decide⟩, h.1, h.2.1, h.2.2.1⟩

/-- C10: For every inbound event whose ResourceType is neither
"Custom::Certificate" nor "Custom::CertificateValidator", the entry point
records no events at all (in particular zero response deliveries),
invokes no resource handler (the outcome is independent of the external
world), and returns normally (no exception). -/
theorem main_handler_foreign_resource_type (w wO : World) (ev : LambdaEvent)
    (h1 : ev.ResourceType ≠ "Custom::Certificate")
    (h2 : ev.ResourceType ≠ "Custom::CertificateValidator") :
    mainHandler w ev = ([], none) ∧ mainHandler w ev = mainHandler wO ev := by
  simp [mainHandler, h1, h2]

/-- Witness for `main_handler_foreign_resource_type` at a concrete
event. -/
theorem main_handler_foreign_resource_type_witness :
    ("Custom::Other" ≠ "Custom::Certificate" ∧
      "Custom::Other" ≠ "Custom::CertificateValidator") ∧
    mainHandler okWorld { ResourceType := "Custom::Other" } = ([], none) :=
  ⟨⟨by decide, by decide⟩,
    (main_handler_foreign_resource_type okWorld timeoutWorld
      { ResourceType := "Custom::Other" } (by decide) (by decide)).1⟩

/-- C6 (spec-modelled): the event's region is the 4th colon-delimited
segment of the stack identifier when that identifier has at least four
segments, and the fallback "us-east-1" (with one warning logged)
otherwise; once computed it is cached, and a repeated access returns the
same region without recomputing the state or re-logging the warning. -/
theorem request_region_cached (stack_id : String) (st : RequestState)
    (h : st.region_cache = none) :
    (4 ≤ (pySplit ":" stack_id).length →
      (Request.region stack_id st).1 = (pySplit ":" stack_id).getD 3 "" ∧
      (Request.region stack_id st).2.warnCount = st.warnCount) ∧
    ((pySplit ":" stack_id).length < 4 →
      (Request.region stack_id st).1 = Request.DEFAULT_REGION ∧
      (Request.region stack_id st).2.warnCount = st.warnCount + 1) ∧
    Request.region stack_id (Request.region stack_id st).2 =
      Request.region stack_id st := by
  refine ⟨fun h4 => ?_, fun h4 => ?_, ?_⟩
  · simp [Request.region, h, h4]
  · have : ¬ 4 ≤ (pySplit ":" stack_id).length := by omega
    simp [Request.region, h, this]
  · by_cases h4 : 4 ≤ (pySplit ":" stack_id).length
    · simp [Request.region, h, h4]
    · simp [Request.region, h, h4]

/-- Witness for `request_region_cached` at the spec's example stack
identifier, whose 4th colon-delimited segment is "us-west-2". -/
theorem request_region_cached_witness :
    (Request.region
      "arn:aws:cloudformation:us-west-2:123456789012:stack/x/y" {}).1 =
      "us-west-2" ∧
    Request.region "arn:aws:cloudformation:us-west-2:123456789012:stack/x/y"
        (Request.region
          "arn:aws:cloudformation:us-west-2:123456789012:stack/x/y" {}).2 =
      Request.region
        "arn:aws:cloudformation:us-west-2:123456789012:stack/x/y" {} :=
  have h := request_region_cached
    "arn:aws:cloudformation:us-west-2:123456789012:stack/x/y" {} rfl
  ⟨((h.1 (by decide)).1).trans (by decide), h.2.2⟩

/-- C8: the list-cleaning transform removes exactly the elements equal to
`None`, the empty string or `"-"` (membership characterisation plus
order-preserving sublist), a falsy input yields the empty list, cleaning
is idempotent, an already-clean list is returned unchanged, and
`clean([None, "a", "", "-", "b"]) = ["a", "b"]`. -/
theorem clean_list_transform :
    CleanListValue.parsed none = [] ∧
    CleanListValue.parsed (some []) = [] ∧
    (∀ l : List (Option String),
      (CleanListValue.parsed (some l)).Sublist l) ∧
    (∀ (l : List (Option String)) (x : Option String),
      x ∈ CleanListValue.parsed (some l) ↔
        x ∈ l ∧ x ≠ none ∧ x ≠ some "" ∧ x ≠ some "-") ∧
    (∀ v, CleanListValue.parsed (some (CleanListValue.parsed v)) =
      CleanListValue.parsed v) ∧
    (∀ l : List (Option String),
      (∀ x ∈ l, x ≠ none ∧ x ≠ some "" ∧ x ≠ some "-") →
      CleanListValue.parsed (some l) = l) ∧
    CleanListValue.parsed
        (some [none, some "a", some "", some "-", some "b"]) =
      [some "a", some "b"] := by
  refine ⟨rfl, rfl, ?_, ?_, ?_, ?_, by decide⟩
  · intro l
    exact List.filter_sublist l
  · intro l x
    simp [CleanListValue.parsed, CleanListValue.isInvalid, List.mem_filter,
      not_or, and_assoc]
  · intro v
    simp only [CleanListValue.parsed]
    rw [List.filter_filter]
    exact List.filter_congr (fun x _ => by rw [Bool.and_self])
  · intro l hl
    simp only [CleanListValue.parsed]
    refine List.filter_eq_self.mpr (fun x hx => ?_)
    have h := hl x hx
    simp [CleanListValue.isInvalid, h.1, h.2.1, h.2.2]

/-- Witness for `clean_list_transform`: the already-clean-list conjunct
applied at `["a", "b"]`, its hypothesis discharged concretely. -/
theorem clean_list_transform_witness :
    (∀ x ∈ ([some "a", some "b"] : List (Option String)),
      x ≠ none ∧ x ≠ some "" ∧ x ≠ some "-") ∧
    CleanListValue.parsed (some [some "a", some "b"]) =
      [some "a", some "b"] :=
  ⟨by decide, clean_list_transform.2.2.2.2.2.1 [some "a", some "b"]
    (by decide)⟩

/-- C1: for every request type and dispatched operations (none of which
delivers a response itself — delivery belongs to the handler alone), the
handler's trace contains exactly one response delivery on every path;
and whenever the dispatched operation raised an exception, the final
result is FAILED with the exception's `str` form as reason, the
exception is not rethrown — only a failure of the delivery call itself
can escape. -/
theorem handler_catches_and_reports_once (w : World) (rt : String)
    (c u d : Response → OpOut) (resp : Response)
    (hc : ∀ r, Event.sendResponse ∉ (c r).events)
    (hu : ∀ r, Event.sendResponse ∉ (u r).events)
    (hd : ∀ r, Event.sendResponse ∉ (d r).events) :
    (Provider.handler w rt c u d resp).2.1.count Event.sendResponse = 1 ∧
    (w.putResponse (Provider.handler w rt c u d resp).1 = .ok () →
      (Provider.handler w rt c u d resp).2.2 = none) ∧
    ∀ e, (dispatchStep rt c u d resp).exn = some e →
      (Provider.handler w rt c u d resp).1.Status = some Status.FAILED ∧
      (Provider.handler w rt c u d resp).1.Reason = some e.toStr := by
  refine ⟨?_, ?_, ?_⟩
  · have hnot : Event.sendResponse ∉ (dispatchStep rt c u d resp).events := by
      unfold dispatchStep
      split_ifs with h1 h2 h3
      · exact hc resp
      · exact hu resp
      · exact hd resp
      · simp
    simp [Provider.handler, List.count_append,
      List.count_eq_zero.mpr hnot]
  · intro hput
    simp only [Provider.handler] at hput ⊢
    rw [hput]
  · intro e he
    simp [Provider.handler, he, Response.set_status, Response.set_reason,
      Status.FAILED]

/-- Witness for `handler_catches_and_reports_once`: a Create whose
operation raises `"boom"`. -/
theorem handler_catches_witness :
    ((∀ r, Event.sendResponse ∉ (raiseOp r).events) ∧
      (dispatchStep "Create" raiseOp raiseOp raiseOp {}).exn =
        some (Exn.other "boom")) ∧
    (Provider.handler okWorld "Create" raiseOp raiseOp raiseOp
        {}).2.1.count Event.sendResponse = 1 ∧
    (Provider.handler okWorld "Create" raiseOp raiseOp raiseOp {}).1.Status
      = some Status.FAILED ∧
    (Provider.handler okWorld "Create" raiseOp raiseOp raiseOp {}).1.Reason
      = some "boom" :=
  have h := handler_catches_and_reports_once okWorld "Create"
    raiseOp raiseOp raiseOp {}
    (fun _ => by simp [raiseOp]) (fun _ => by simp [raiseOp])
    (fun _ => by simp [raiseOp])
  have h2 := h.2.2 (Exn.other "boom") rfl
  ⟨⟨fun _ => by simp [raiseOp], rfl⟩, h.1, h2.1, h2.2⟩

/-- Every run of `change_resource_record_sets` begins by entering the
method: its event trace starts with the `crrsEnter` marker. -/
theorem crrs_events_head (w : World) (arn action : String)
    (resp : Response) :
    (change_resource_record_sets w arn action resp).events.head? =
      some (Event.crrsEnter arn action) := by
  unfold change_resource_record_sets
  split_ifs with h
  · rfl
  · cases hv : w.getDVOs arn with
    | error e => simp [hv]
    | ok dvos =>
      cases ht : (processDVOs w action dvos).2 with
      | none => simp [hv, ht]
      | some e => simp [hv, ht]

/-- C2 (amended): `CertificateValidator.update` always enters
`change_resource_record_sets` with the old ARN and DELETE first; and
whenever that first call returns (raises no uncaught exception), the
UPSERT call with the new ARN follows it, the full trace being the DELETE
call's events followed by the UPSERT call's events — regardless of
whether the old and new ARNs or properties are equal. -/
theorem cv_update_delete_then_upsert (w : World)
    (properties old_properties : ResourceProperties) (resp : Response)
    (h : (change_resource_record_sets w old_properties.certificate_arn
        Action.DELETE resp).exn = none) :
    (CertificateValidator.update w properties old_properties resp).events =
      (change_resource_record_sets w old_properties.certificate_arn
        Action.DELETE resp).events ++
      (change_resource_record_sets w properties.certificate_arn
        Action.UPSERT
        (change_resource_record_sets w old_properties.certificate_arn
          Action.DELETE resp).response).events ∧
    (change_resource_record_sets w old_properties.certificate_arn
        Action.DELETE resp).events.head? =
      some (Event.crrsEnter old_properties.certificate_arn Action.DELETE) ∧
    (change_resource_record_sets w properties.certificate_arn Action.UPSERT
        (change_resource_record_sets w old_properties.certificate_arn
          Action.DELETE resp).response).events.head? =
      some (Event.crrsEnter properties.certificate_arn Action.UPSERT) := by
  refine ⟨?_, crrs_events_head w old_properties.certificate_arn
    Action.DELETE resp, crrs_events_head w properties.certificate_arn
    Action.UPSERT _⟩
  simp [CertificateValidator.update, h]

/-- Witness for `cv_update_delete_then_upsert` with identical old and new
ARNs in a fully successful world. -/
theorem cv_update_delete_then_upsert_witness :
    (change_resource_record_sets okWorld arnExample Action.DELETE {}).exn =
      none ∧
    (CertificateValidator.update okWorld
        { certificate_arn := arnExample } { certificate_arn := arnExample }
        {}).events =
      (change_resource_record_sets okWorld arnExample Action.DELETE
        {}).events ++
      (change_resource_record_sets okWorld arnExample Action.UPSERT
        (change_resource_record_sets okWorld arnExample Action.DELETE
          {}).response).events :=
  have h : (change_resource_record_sets okWorld arnExample Action.DELETE
      {}).exn = none := by decide
  ⟨h, (cv_update_delete_then_upsert okWorld
    { certificate_arn := arnExample } { certificate_arn := arnExample }
    {} h).1⟩

/-- Counterexample to C2 as stated: in a world where the
validation-requirement poll of the first (DELETE) call times out, the
uncaught `polling.TimeoutException` aborts `update` and the UPSERT call
with the new ARN never occurs, so the two calls do NOT "always both"
happen. -/
theorem cv_update_upsert_can_be_skipped :
    (CertificateValidator.update timeoutWorld
        { certificate_arn := arnExample } { certificate_arn := arnExample }
        {}).events =
      [Event.crrsEnter arnExample Action.DELETE,
        Event.describeFetch arnExample] ∧
    Event.crrsEnter arnExample Action.UPSERT ∉
      (CertificateValidator.update timeoutWorld
        { certificate_arn := arnExample } { certificate_arn := arnExample }
        {}).events := by
  refine ⟨by decide, by decide⟩

/-- The hosted-zone lookup domains recorded while processing a list of
validation requirements are exactly the apex domains of the first `n`
requirements, for the number `n` of requirements reached before the loop
finished or aborted. -/
theorem processDVOs_zone_args (w : World) (action : String)
    (dvos : List DomainValidationOption) :
    ∃ n, (processDVOs w action dvos).1.filterMap zoneArg =
      (dvos.map (fun o => apexDomain o.DomainName)).take n := by
  induction dvos with
  | nil => exact ⟨0, rfl⟩
  | cons dvo rest ih =>
    simp only [processDVOs]
    cases hz : (get_hosted_zone_id w (apexDomain dvo.DomainName)).2 with
    | error e =>
      refine ⟨1, ?_⟩
      simp [hz, get_hosted_zone_id, zoneArg]
    | ok zid =>
      cases hrr : dvo.ResourceRecord with
      | none =>
        refine ⟨1, ?_⟩
        simp [hz, hrr, get_hosted_zone_id, zoneArg]
      | some rr =>
        cases hc : w.changeRRS zid (get_change_batch action rr) with
        | error e =>
          refine ⟨1, ?_⟩
          simp [hz, hrr, hc, get_hosted_zone_id, zoneArg]
        | ok _ =>
          obtain ⟨n, hn⟩ := ih
          refine ⟨n + 1, ?_⟩
          simp [hz, hrr, hc, get_hosted_zone_id, zoneArg, hn]

/-- C3: whenever the world reports the certificate's validation
requirements as `dvos`, every hosted-zone lookup performed by
`change_resource_record_sets` uses, requirement by requirement and in
order, exactly the apex domain (`'.'.join(name.split('.')[-2:])`) of
that requirement's validation domain name. -/
theorem crrs_zone_lookups_use_apex (w : World) (arn action : String)
    (resp : Response) (dvos : List DomainValidationOption)
    (h : w.getDVOs arn = .ok dvos) :
    ∃ n, (change_resource_record_sets w arn action
        resp).events.filterMap zoneArg =
      (dvos.map (fun o => apexDomain o.DomainName)).take n := by
  unfold change_resource_record_sets
  split_ifs with hv
  · exact ⟨0, by simp [zoneArg]⟩
  · obtain ⟨n, hn⟩ := processDVOs_zone_args w action dvos
    refine ⟨n, ?_⟩
    cases ht : (processDVOs w action dvos).2 with
    | none => simp [h, ht, zoneArg, hn]
    | some e => simp [h, ht, zoneArg, hn]

/-- Witness for `crrs_zone_lookups_use_apex` at the spec's example
validation domain: `"_acm-challenge.sub.example.com"` narrows to
`"example.com"`. -/
theorem crrs_zone_lookups_use_apex_witness :
    okWorld.getDVOs arnExample = .ok [dvoExample] ∧
    apexDomain dvoExample.DomainName = "example.com" ∧
    ∃ n, (change_resource_record_sets okWorld arnExample Action.UPSERT
        {}).events.filterMap zoneArg =
      ([dvoExample].map (fun o => apexDomain o.DomainName)).take n :=
  ⟨rfl, by decide,
    crrs_zone_lookups_use_apex okWorld arnExample Action.UPSERT {}
      [dvoExample] rfl⟩

/-- `matchLit` succeeds exactly on strings extending the literal. -/
theorem matchLit_some_iff (p : List Char) : ∀ (s r : List Char),
    matchLit p s = some r ↔ s = p ++ r := by
  induction p with
  | nil =>
    intro s r
    simp [matchLit, eq_comm]
  | cons a ps ih =>
    intro s r
    cases s with
    | nil => simp [matchLit]
    | cons c cs =>
      simp only [matchLit]
      by_cases h : a = c
      · subst h
        simp [ih]
      · rw [if_neg h]
        simp only [List.cons_append, List.cons.injEq]
        constructor
        · intro hcontra
          cases hcontra
        · rintro ⟨hca, -⟩
          exact absurd hca.symm h

/-- `spanRun` splits off an explicitly given satisfying run ended by a
failing character. -/
theorem spanRun_append (p : Char → Bool) (a : List Char) (x : Char)
    (b : List Char) (ha : ∀ c ∈ a, p c = true) (hx : p x = false) :
    spanRun p (a ++ x :: b) = (a, x :: b) := by
  induction a with
  | nil => simp [spanRun, hx]
  | cons c cs ih =>
    have hc : p c = true := ha c (by simp)
    have ih2 := ih (fun e he => ha e (by simp [he]))
    simp [spanRun, hc, ih2]

/-- The two components of `spanRun` reassemble the input, and the first
satisfies the predicate throughout. -/
theorem spanRun_decomp (p : Char → Bool) (l : List Char) :
    (spanRun p l).1 ++ (spanRun p l).2 = l ∧
    ∀ c ∈ (spanRun p l).1, p c = true := by
  induction l with
  | nil => simp [spanRun]
  | cons c cs ih =>
    by_cases h : p c
    · refine ⟨?_, ?_⟩
      · simp [spanRun, h, ih.1]
      · intro e he
        simp only [spanRun, h, if_true] at he
        rcases List.mem_cons.mp he with rfl | hmem
        · exact h
        · exact ih.2 e hmem
    · simp [spanRun, h]

/-- The language accepted by `is_valid_arn`, exactly. -/
theorem is_valid_arn_iff_accepted (s : String) :
    is_valid_arn s = true ↔ ArnAccepted s := by
  constructor
  · intro h
    unfold is_valid_arn at h
    split at h
    · exact absurd h (by simp)
    · rename_i r1 hm
      have hs : s.data = "arn:aws:acm:".data ++ r1 :=
        (matchLit_some_iff _ _ _).mp hm
      obtain ⟨hsplit, hall⟩ := spanRun_decomp isRegionChar r1
      rcases hsr : spanRun isRegionChar r1 with ⟨reg, rest1⟩
      rw [hsr] at hsplit hall h
      simp only at hsplit hall h
      cases rest1 with
      | nil => simp at h
      | cons c1 r2 =>
        simp only at h
        rw [Bool.and_eq_true] at h
        obtain ⟨hc1, hrest⟩ := h
        have hc1' : c1 = ':' := by simpa using hc1
        obtain ⟨hd, hda⟩ := spanRun_decomp Char.isDigit r2
        rcases hsp : spanRun Char.isDigit r2 with ⟨ds, rest2⟩
        rw [hsp] at hrest hd hda
        simp only at hd hda hrest
        cases rest2 with
        | nil => simp at hrest
        | cons c2 rest3 =>
          simp only [Bool.and_eq_true, decide_eq_true_eq] at hrest
          obtain ⟨⟨hds, hc2⟩, hres⟩ := hrest
          cases rest3 with
          | nil => simp at hres
          | cons c tail =>
            have hres' : isResChar c = true := by simpa using hres
            subst hc1' hc2
            refine ⟨reg, ds, c, tail, ?_, List.all_eq_true.mpr hall, hds,
              List.all_eq_true.mpr hda, hres'⟩
            rw [hs, ← hsplit, ← hd]
  · rintro ⟨region, acct, c, rest, hs, hreg, hne, hdig, hres⟩
    unfold is_valid_arn
    have hm : matchLit "arn:aws:acm:".data s.data =
        some (region ++ (':' :: (acct ++ (':' :: (c :: rest))))) :=
      (matchLit_some_iff _ _ _).mpr hs
    rw [hm]
    have hsp1 : spanRun isRegionChar
        (region ++ ':' :: (acct ++ (':' :: (c :: rest)))) =
        (region, ':' :: (acct ++ (':' :: (c :: rest)))) :=
      spanRun_append _ _ _ _
        (fun e he => List.all_eq_true.mp hreg e he) (by decide)
    have hsp2 : spanRun Char.isDigit (acct ++ ':' :: (c :: rest)) =
        (acct, ':' :: (c :: rest)) :=
      spanRun_append _ _ _ _
        (fun e he => List.all_eq_true.mp hdig e he) (by decide)
    simp [hsp1, hsp2, hne, hres]

/-- C5 (amended): `is_valid_arn` accepts exactly the strings that START
with `arn:aws:acm:<region-chars>:<digits>:<resource-char>` — any resource
segment (not only `certificate`) and arbitrary trailing characters are
accepted, because the source checks an unanchored `re.match`.  The
defensive-guard half of the claim stands: when the identifier fails the
check, `Certificate.delete` makes no call at all and
`change_resource_record_sets` records no external call. -/
theorem is_valid_arn_characterization :
    (∀ s, is_valid_arn s = true ↔ ArnAccepted s) ∧
    (∀ (w : World) (pid : String) (resp : Response),
      is_valid_arn pid = false →
        (Certificate.delete w pid resp).events = []) ∧
    (∀ (w : World) (arn action : String) (resp : Response),
      is_valid_arn arn = false →
        ∀ e ∈ (change_resource_record_sets w arn action resp).events,
          e.isExternalCall = false) := by
  refine ⟨is_valid_arn_iff_accepted, ?_, ?_⟩
  · intro w pid resp h
    by_cases h1 : pid = ""
    · simp [Certificate.delete, h1]
    · simp [Certificate.delete, h1, h]
  · intro w arn action resp h e he
    rw [change_resource_record_sets, if_pos h] at he
    rcases List.mem_singleton.mp he with rfl
    rfl

/-- Witness for `is_valid_arn_characterization`: the characterisation at
a well-formed ARN, and the guards at the malformed identifier
`"not-an-arn"`. -/
theorem is_valid_arn_characterization_witness :
    (is_valid_arn arnExample = true ↔ ArnAccepted arnExample) ∧
    (is_valid_arn "not-an-arn" = false ∧
      (Certificate.delete okWorld "not-an-arn" {}).events = []) ∧
    ∀ e ∈ (change_resource_record_sets okWorld "not-an-arn" Action.DELETE
        {}).events, e.isExternalCall = false :=
  ⟨is_valid_arn_characterization.1 arnExample,
    ⟨by decide, is_valid_arn_characterization.2.1 okWorld "not-an-arn" {}
      (by decide)⟩,
    is_valid_arn_characterization.2.2 okWorld "not-an-arn" Action.DELETE {}
      (by decide)⟩

/-- Counterexample to C5 as stated: `"arn:aws:acm::1:x"` is accepted by
the code although its resource segment is not `certificate` (and
`"arn:aws:acm:us-east-1:1:certificate###trailing !!"` is accepted despite
its trailing garbage), so `is_valid_arn` does not coincide with the
spec's described shape. -/
theorem is_valid_arn_shape_counterexample :
    ¬ (∀ s : String, is_valid_arn s = specArnShape s) := by
  intro h
  have h1 := h "arn:aws:acm::1:x"
  exact absurd h1 (by decide)

/-! ### Association-list lemmas for the Python dict model -/

/-- `dictFind` misses exactly the keys outside the dict. -/
theorem dictFind_eq_none {α : Type} (k : String) :
    ∀ d : List (String × α), dictFind k d = none ↔ k ∉ d.map Prod.fst := by
  intro d
  induction d with
  | nil => simp [dictFind]
  | cons e rest ih =>
    obtain ⟨k', v⟩ := e
    by_cases h : k' = k
    · subst h
      simp [dictFind]
    · simp [dictFind, h, ih, Ne.symm h]

/-- The key-membership test used by `dictUpd`. -/
theorem anyKey_eq_true {α : Type} (k : String) (d : List (String × α)) :
    d.any (fun p => p.1 = k) = true ↔ k ∈ d.map Prod.fst := by
  simp only [List.any_eq_true, decide_eq_true_eq, List.mem_map]

/-- A hit in the left part of an append wins. -/
theorem dictFind_append_left {α : Type} {k : String}
    {d₁ : List (String × α)} {v : α} (d₂ : List (String × α))
    (h : dictFind k d₁ = some v) : dictFind k (d₁ ++ d₂) = some v := by
  induction d₁ with
  | nil => simp [dictFind] at h
  | cons e rest ih =>
    obtain ⟨k', v'⟩ := e
    by_cases hk : k' = k
    · subst hk
      simpa [dictFind] using h
    · simp only [dictFind, if_neg hk] at h
      simpa [dictFind, hk] using ih h

/-- A miss in the left part of an append defers to the right part. -/
theorem dictFind_append_right {α : Type} {k : String}
    {d₁ : List (String × α)} (d₂ : List (String × α))
    (h : dictFind k d₁ = none) :
    dictFind k (d₁ ++ d₂) = dictFind k d₂ := by
  induction d₁ with
  | nil => rfl
  | cons e rest ih =>
    obtain ⟨k', v'⟩ := e
    by_cases hk : k' = k
    · simp [dictFind, hk] at h
    · simp only [dictFind, if_neg hk] at h
      simpa [dictFind, hk] using ih h

/-- Overwriting in place hits the overwritten value. -/
theorem find_map_self {α : Type} (k : String) (v : α) :
    ∀ d : List (String × α), d.any (fun p => p.1 = k) = true →
    dictFind k (d.map (fun p => if p.1 = k then (k, v) else p)) = some v := by
  intro d
  induction d with
  | nil => intro h; simp at h
  | cons e rest ih =>
    intro h
    obtain ⟨k', v'⟩ := e
    by_cases hk : k' = k
    · subst hk
      simp [dictFind]
    · have h' : rest.any (fun p => p.1 = k) = true := by
        simpa [hk] using h
      simp [dictFind, apply_ite, hk, ih h']

/-- Overwriting key `k` in place leaves other lookups unchanged. -/
theorem find_map_ne {α : Type} (k k' : String) (v : α) (h : k' ≠ k) :
    ∀ d : List (String × α),
    dictFind k' (d.map (fun p => if p.1 = k then (k, v) else p)) =
      dictFind k' d := by
  intro d
  induction d with
  | nil => rfl
  | cons e rest ih =>
    obtain ⟨k₁, v₁⟩ := e
    by_cases hk : k₁ = k
    · subst hk
      simp [dictFind, apply_ite, Ne.symm h, ih]
    · simp only [List.map_cons, dictFind, if_neg hk]
      by_cases hk' : k₁ = k'
      · simp [hk']
      · simp [hk', ih]

/-- `dictUpd` binds the written key to the written value. -/
theorem dictFind_dictUpd_self {α : Type} (d : List (String × α))
    (k : String) (v : α) : dictFind k (dictUpd d k v) = some v := by
  unfold dictUpd
  split_ifs with ha
  · exact find_map_self k v d ha
  · have hnone : dictFind k d = none :=
      (dictFind_eq_none k d).mpr
        (fun hm => ha ((anyKey_eq_true k d).mpr hm))
    rw [dictFind_append_right _ hnone]
    simp [dictFind]

/-- `dictUpd` leaves every other key's binding unchanged. -/
theorem dictFind_dictUpd_ne {α : Type} (d : List (String × α))
    (k k' : String) (v : α) (h : k' ≠ k) :
    dictFind k' (dictUpd d k v) = dictFind k' d := by
  unfold dictUpd
  split_ifs with ha
  · exact find_map_ne k k' v h d
  · cases hf : dictFind k' d with
    | some w => exact dictFind_append_left _ hf
    | none =>
      rw [dictFind_append_right _ hf]
      simp [dictFind, Ne.symm h]

/-- The keys after `dictUpd`: unchanged on overwrite, the new key
appended otherwise. -/
theorem keys_dictUpd {α : Type} (d : List (String × α)) (k : String)
    (v : α) :
    (dictUpd d k v).map Prod.fst =
      if d.any (fun p => p.1 = k) then d.map Prod.fst
      else d.map Prod.fst ++ [k] := by
  unfold dictUpd
  split_ifs with ha
  · clear ha
    induction d with
    | nil => rfl
    | cons e rest ih =>
      by_cases hk : e.1 = k
      · simp [hk, ih]
      · simp [hk, ih]
  · simp

/-- `dictUpd` preserves key distinctness. -/
theorem keys_dictUpd_nodup {α : Type} (d : List (String × α)) (k : String)
    (v : α) (h : (d.map Prod.fst).Nodup) :
    ((dictUpd d k v).map Prod.fst).Nodup := by
  rw [keys_dictUpd]
  split_ifs with ha
  · exact h
  · have hk : k ∉ d.map Prod.fst :=
      fun hm => ha ((anyKey_eq_true k d).mpr hm)
    simp [List.nodup_append, h, hk]

/-- `dict.update` with keys all different from `k` leaves `k`'s binding
unchanged. -/
theorem dictFind_updMany_notin {α : Type} (k : String) :
    ∀ (other d : List (String × α)), k ∉ other.map Prod.fst →
    dictFind k (dictUpdMany d other) = dictFind k d := by
  intro other
  induction other with
  | nil => intro d _; rfl
  | cons e rest ih =>
    intro d h
    simp only [List.map_cons, List.mem_cons, not_or] at h
    rw [show dictUpdMany d (e :: rest) =
      dictUpdMany (dictUpd d e.1 e.2) rest from rfl]
    rw [ih _ h.2]
    exact dictFind_dictUpd_ne _ _ _ _ h.1

/-- `dict.update` binds each updating key to its (unique) value. -/
theorem dictFind_updMany_mem {α : Type} (k : String) (v : α) :
    ∀ (other d : List (String × α)), (other.map Prod.fst).Nodup →
    (k, v) ∈ other → dictFind k (dictUpdMany d other) = some v := by
  intro other
  induction other with
  | nil => intro d _ h; simp at h
  | cons e rest ih =>
    intro d hnod hmem
    rw [show dictUpdMany d (e :: rest) =
      dictUpdMany (dictUpd d e.1 e.2) rest from rfl]
    have hnod' := by
      simpa only [List.map_cons, List.nodup_cons] using hnod
    rcases List.mem_cons.mp hmem with heq | hmem'
    · subst heq
      rw [dictFind_updMany_notin k rest _ hnod'.1]
      exact dictFind_dictUpd_self _ _ _
    · exact ih _ hnod'.2 hmem'

/-- `dict.update` preserves key distinctness. -/
theorem keys_updMany_nodup {α : Type} :
    ∀ (other d : List (String × α)), (d.map Prod.fst).Nodup →
    ((dictUpdMany d other).map Prod.fst).Nodup := by
  intro other
  induction other with
  | nil => intro d h; exact h
  | cons e rest ih =>
    intro d h
    exact ih _ (keys_dictUpd_nodup d e.1 e.2 h)

/-- Keys after `dict.update` come from one of the two dicts. -/
theorem keys_updMany_sub {α : Type} :
    ∀ (other d : List (String × α)) (k : String),
    k ∈ (dictUpdMany d other).map Prod.fst →
    k ∈ d.map Prod.fst ∨ k ∈ other.map Prod.fst := by
  intro other
  induction other with
  | nil => intro d k h; exact Or.inl h
  | cons e rest ih =>
    intro d k h
    rcases ih _ k h with h1 | h2
    · rw [keys_dictUpd] at h1
      split_ifs at h1 with ha
      · exact Or.inl h1
      · rcases List.mem_append.mp h1 with h3 | h3
        · exact Or.inl h3
        · right
          simp only [List.mem_singleton] at h3
          simp [h3]
    · right
      simp only [List.map_cons, List.mem_cons]
      exact Or.inr h2

/-- A successful lookup is a member. -/
theorem dictFind_some_mem {α : Type} (k : String) (v : α) :
    ∀ d : List (String × α), dictFind k d = some v → (k, v) ∈ d := by
  intro d
  induction d with
  | nil => intro h; simp [dictFind] at h
  | cons e rest ih =>
    intro h
    obtain ⟨k', v'⟩ := e
    by_cases hk : k' = k
    · subst hk
      simp [dictFind] at h
      subst h
      exact List.mem_cons_self _ _
    · simp only [dictFind] at h
      rw [if_neg hk] at h
      exact List.mem_cons_of_mem _ (ih h)

/-- Under distinct keys, membership determines the lookup. -/
theorem mem_dictFind_of_nodup {α : Type} (k : String) (v : α) :
    ∀ d : List (String × α), (d.map Prod.fst).Nodup → (k, v) ∈ d →
    dictFind k d = some v := by
  intro d
  induction d with
  | nil => intro _ h; simp at h
  | cons e rest ih =>
    intro hnod hmem
    have hnod' := by
      simpa only [List.map_cons, List.nodup_cons] using hnod
    rcases List.mem_cons.mp hmem with heq | hmem'
    · subst heq
      simp [dictFind]
    · have hk : e.1 ≠ k := by
        intro hc
        exact hnod'.1 (hc ▸ (List.mem_map.mpr ⟨(k, v), hmem', rfl⟩))
      simpa [dictFind, hk] using ih hnod'.2 hmem'

/-- A successful lookup splits the dict at the first hit. -/
theorem dictFind_some_decomp {α : Type} (k : String) (v : α) :
    ∀ d : List (String × α), dictFind k d = some v →
    ∃ l₁ l₂, d = l₁ ++ (k, v) :: l₂ ∧ ∀ e ∈ l₁, e.1 ≠ k := by
  intro d
  induction d with
  | nil => intro h; simp [dictFind] at h
  | cons e rest ih =>
    intro h
    obtain ⟨k', v'⟩ := e
    by_cases hk : k' = k
    · subst hk
      simp [dictFind] at h
      subst h
      exact ⟨[], rest, rfl, by simp⟩
    · simp only [dictFind] at h
      rw [if_neg hk] at h
      obtain ⟨l₁, l₂, hd, hl⟩ := ih h
      refine ⟨(k', v') :: l₁, l₂, by simp [hd], ?_⟩
      intro e he
      rcases List.mem_cons.mp he with rfl | he'
      · exact hk
      · exact hl e he'

/-- Entries whose write key differs from `k` never touch `k`'s
binding. -/
theorem foldl_dmStep_skip {α : Type} (MAP : List (String × DMValue α))
    (k : String) :
    ∀ (entries acc : List (String × α)),
    (∀ e ∈ entries, dmKey MAP e.1 ≠ k) →
    dictFind k (entries.foldl (dmStep MAP) acc) = dictFind k acc := by
  intro entries
  induction entries with
  | nil => intro acc _; rfl
  | cons e rest ih =>
    intro acc h
    rw [List.foldl_cons, ih _ (fun x hx => h x (List.mem_cons_of_mem _ hx))]
    have hk : dmKey MAP e.1 ≠ k := h e (List.mem_cons_self _ _)
    cases hf : dictFind e.1 MAP with
    | some p =>
      have hkey : dmKey MAP e.1 = p.param := by simp [dmKey, hf]
      rw [hkey] at hk
      simp [dmStep, hf, dictFind_dictUpd_ne _ _ _ _ (Ne.symm hk)]
    | none =>
      have hkey : dmKey MAP e.1 = e.1 := by simp [dmKey, hf]
      rw [hkey] at hk
      simp [dmStep, hf, dictFind_dictUpd_ne _ _ _ _ (Ne.symm hk)]

/-- The last entry writing a key determines that key's final binding. -/
theorem foldl_dmStep_write {α : Type} (MAP : List (String × DMValue α))
    (n : String) (v : α) (l₁ l₂ acc : List (String × α))
    (h : ∀ e ∈ l₂, dmKey MAP e.1 ≠ dmKey MAP n) :
    dictFind (dmKey MAP n) ((l₁ ++ (n, v) :: l₂).foldl (dmStep MAP) acc) =
      some (dmVal MAP n v) := by
  rw [List.foldl_append, List.foldl_cons, foldl_dmStep_skip MAP _ l₂ _ h]
  cases hf : dictFind n MAP with
  | some p => simp [dmStep, dmKey, dmVal, hf, dictFind_dictUpd_self]
  | none => simp [dmStep, dmKey, dmVal, hf, dictFind_dictUpd_self]

/-- In a dict with distinct keys, entries after the first (only) hit for
`k` carry other keys. -/
theorem nodup_decomp_tail_keys {α : Type} {d l₁ l₂ : List (String × α)}
    {k : String} {v : α} (hnod : (d.map Prod.fst).Nodup)
    (hsplit : d = l₁ ++ (k, v) :: l₂) : ∀ e ∈ l₂, e.1 ≠ k := by
  rw [hsplit] at hnod
  simp only [List.map_append, List.map_cons] at hnod
  have hcons := (List.nodup_append.mp hnod).2.1
  have hn2 : k ∉ l₂.map Prod.fst := (List.nodup_cons.mp hcons).1
  intro e he hc
  exact hn2 (hc ▸ List.mem_map.mpr ⟨e, he, rfl⟩)

/-- C9 (amended): under a well-formed schema (distinct declared input
keys, distinct declared target names, distinct kwargs keys, and no
undeclared kwargs key equal to a declared target name), the constructed
object binds every declared field's target name to the field's transform
applied to the supplied input value when the input key is present — and
applied to the declared default otherwise (the default, too, passes
through the transform); and every undeclared input key is copied into
the constructed object verbatim, NOT ignored. -/
theorem data_mapper_init_binds {α : Type}
    (MAP : List (String × DMValue α)) (kwargs : List (String × α))
    (hm : (MAP.map Prod.fst).Nodup)
    (hp : (MAP.map (fun q => q.2.param)).Nodup)
    (hkw : (kwargs.map Prod.fst).Nodup)
    (hdisj : ∀ q ∈ kwargs, q.1 ∉ MAP.map Prod.fst →
      q.1 ∉ MAP.map (fun m => m.2.param)) :
    (∀ np ∈ MAP, dictFind np.2.param (DataMapper.init MAP kwargs) =
      some (np.2.parsedFn ((dictFind np.1 kwargs).getD np.2.default))) ∧
    (∀ q ∈ kwargs, q.1 ∉ MAP.map Prod.fst →
      dictFind q.1 (DataMapper.init MAP kwargs) = some q.2) := by
  have hkeysdef : ((MAP.map fun p => (p.1, p.2.default)).map Prod.fst)
      = MAP.map Prod.fst := by
    rw [List.map_map]
    rfl
  have hnodData : ((dictUpdMany (MAP.map fun p => (p.1, p.2.default))
      kwargs).map Prod.fst).Nodup := by
    apply keys_updMany_nodup
    rw [hkeysdef]
    exact hm
  have hinit : DataMapper.init MAP kwargs =
      (dictUpdMany (MAP.map fun p => (p.1, p.2.default)) kwargs).foldl
        (dmStep MAP) [] := rfl
  constructor
  · rintro ⟨n, p⟩ hnp
    show dictFind p.param (DataMapper.init MAP kwargs) =
      some (p.parsedFn ((dictFind n kwargs).getD p.default))
    have hfindMAP : dictFind n MAP = some p :=
      mem_dictFind_of_nodup n p MAP hm hnp
    have hkey : dmKey MAP n = p.param := by simp [dmKey, hfindMAP]
    have hval : dmVal MAP n ((dictFind n kwargs).getD p.default) =
        p.parsedFn ((dictFind n kwargs).getD p.default) := by
      simp [dmVal, hfindMAP]
    have hfindData : dictFind n
        (dictUpdMany (MAP.map fun p => (p.1, p.2.default)) kwargs) =
        some ((dictFind n kwargs).getD p.default) := by
      cases hfk : dictFind n kwargs with
      | some v =>
        simpa using dictFind_updMany_mem n v kwargs _ hkw
          (dictFind_some_mem n v kwargs hfk)
      | none =>
        have hn : n ∉ kwargs.map Prod.fst := (dictFind_eq_none n kwargs).mp hfk
        rw [dictFind_updMany_notin n kwargs _ hn]
        have hmemdef : ((n, p.default) : String × α) ∈
            MAP.map fun q => (q.1, q.2.default) :=
          List.mem_map.mpr ⟨(n, p), hnp, rfl⟩
        have hnoddef :
            ((MAP.map fun q => (q.1, q.2.default)).map Prod.fst).Nodup := by
          rw [hkeysdef]
          exact hm
        simpa using mem_dictFind_of_nodup n p.default _ hnoddef hmemdef
    obtain ⟨l₁, l₂, hsplit, -⟩ := dictFind_some_decomp _ _ _ hfindData
    have hl₂keys : ∀ e ∈ l₂, e.1 ≠ n :=
      nodup_decomp_tail_keys hnodData hsplit
    have hwk : ∀ e ∈ l₂, dmKey MAP e.1 ≠ dmKey MAP n := by
      intro e he
      rw [hkey]
      have hemem : e ∈ dictUpdMany (MAP.map fun p => (p.1, p.2.default))
          kwargs := by
        rw [hsplit]
        exact List.mem_append.mpr (Or.inr (List.mem_cons_of_mem _ he))
      cases hfe : dictFind e.1 MAP with
      | some pe =>
        have hkey' : dmKey MAP e.1 = pe.param := by simp [dmKey, hfe]
        rw [hkey']
        intro hc
        have hmem' : (e.1, pe) ∈ MAP := dictFind_some_mem _ _ _ hfe
        have heq := List.inj_on_of_nodup_map hp hmem' hnp hc
        exact hl₂keys e he (congrArg Prod.fst heq)
      | none =>
        have hkey' : dmKey MAP e.1 = e.1 := by simp [dmKey, hfe]
        rw [hkey']
        have hnotMAP : e.1 ∉ MAP.map Prod.fst := (dictFind_eq_none _ _).mp hfe
        have hekey : e.1 ∈ (dictUpdMany
            (MAP.map fun p => (p.1, p.2.default)) kwargs).map Prod.fst :=
          List.mem_map.mpr ⟨e, hemem, rfl⟩
        have hor := keys_updMany_sub kwargs _ e.1 hekey
        rw [hkeysdef] at hor
        have hkwk : e.1 ∈ kwargs.map Prod.fst := hor.resolve_left hnotMAP
        obtain ⟨q, hq, hq1⟩ := List.mem_map.mp hkwk
        have hnp2 : q.1 ∉ MAP.map (fun m => m.2.param) :=
          hdisj q hq (hq1 ▸ hnotMAP)
        intro hc
        exact hnp2 (by
          rw [hq1, hc]
          exact List.mem_map.mpr ⟨(n, p), hnp, rfl⟩)
    rw [hinit, hsplit, ← hkey, ← hval]
    exact foldl_dmStep_write MAP n _ l₁ l₂ [] hwk
  · rintro ⟨k, v⟩ hq hqnot
    show dictFind k (DataMapper.init MAP kwargs) = some v
    simp only at hqnot
    have hfe : dictFind k MAP = none := (dictFind_eq_none _ _).mpr hqnot
    have hkey : dmKey MAP k = k := by simp [dmKey, hfe]
    have hval : dmVal MAP k v = v := by simp [dmVal, hfe]
    have hfindData : dictFind k
        (dictUpdMany (MAP.map fun p => (p.1, p.2.default)) kwargs) =
        some v :=
      dictFind_updMany_mem k v kwargs _ hkw hq
    obtain ⟨l₁, l₂, hsplit, -⟩ := dictFind_some_decomp _ _ _ hfindData
    have hl₂keys : ∀ e ∈ l₂, e.1 ≠ k :=
      nodup_decomp_tail_keys hnodData hsplit
    have hwk : ∀ e ∈ l₂, dmKey MAP e.1 ≠ dmKey MAP k := by
      intro e he
      rw [hkey]
      cases hfe2 : dictFind e.1 MAP with
      | some pe =>
        have hkey' : dmKey MAP e.1 = pe.param := by simp [dmKey, hfe2]
        rw [hkey']
        intro hc
        have hmem' : (e.1, pe) ∈ MAP := dictFind_some_mem _ _ _ hfe2
        have hnp2 : k ∉ MAP.map (fun m => m.2.param) :=
          hdisj (k, v) hq hqnot
        exact hnp2 (hc ▸ List.mem_map.mpr ⟨(e.1, pe), hmem', rfl⟩)
      | none =>
        have hkey' : dmKey MAP e.1 = e.1 := by simp [dmKey, hfe2]
        rw [hkey']
        exact hl₂keys e he
    have hw := foldl_dmStep_write MAP k v l₁ l₂ [] hwk
    rw [hkey, hval] at hw
    rw [hinit, hsplit]
    exact hw

/-- Witness for `data_mapper_init_binds` at the one-field schema
`cexMap` and the undeclared input `cexKwargs`: the declared field comes
out as the transform of its default, and the undeclared key is copied
through. -/
theorem data_mapper_init_binds_witness :
    ((cexMap.map Prod.fst).Nodup ∧
      (cexMap.map (fun q => q.2.param)).Nodup ∧
      (cexKwargs.map Prod.fst).Nodup ∧
      (∀ q ∈ cexKwargs, q.1 ∉ cexMap.map Prod.fst →
        q.1 ∉ cexMap.map (fun m => m.2.param))) ∧
    dictFind "a" (DataMapper.init cexMap cexKwargs) = some "X" ∧
    dictFind "Zzz" (DataMapper.init cexMap cexKwargs) = some "v" := by
  have h := data_mapper_init_binds cexMap cexKwargs
    (by simp [cexMap]) (by simp [cexMap]) (by simp [cexKwargs])
    (by simp [cexMap, cexKwargs])
  refine ⟨⟨by simp [cexMap], by simp [cexMap], by simp [cexKwargs],
    by simp [cexMap, cexKwargs]⟩, ?_, ?_⟩
  · have := h.1 ("A", { param := "a", default := "", parsedFn := fun _ => "X" })
      (by simp [cexMap])
    exact this
  · have := h.2 ("Zzz", "v") (by simp [cexKwargs]) (by simp [cexMap])
    exact this

/-- Counterexample to C9 as stated: constructing from schema `cexMap`
(declared input key `"A"`, target `"a"`, default `""`, transform
constantly `"X"`) with the undeclared input `{"Zzz": "v"}` yields an
object carrying `"Zzz" ↦ "v"` (the undeclared key is not ignored) and
`"a" ↦ "X"` (the transform of the default, not the declared default
`""`). -/
theorem data_mapper_unknown_keys_counterexample :
    (dictFind "Zzz" (DataMapper.init cexMap cexKwargs) = some "v" ∧
      dictFind "a" (DataMapper.init cexMap cexKwargs) = some "X") ∧
    ¬ (dictFind "Zzz" (DataMapper.init cexMap cexKwargs) = none ∧
      dictFind "a" (DataMapper.init cexMap cexKwargs) = some "") := by
  refine ⟨⟨rfl, rfl⟩, ?_⟩
  rintro ⟨h1, -⟩
  simp [show dictFind "Zzz" (DataMapper.init cexMap cexKwargs) = some "v"
    from rfl] at h1

end CertValidator
